import Mathlib

/-!
Verification of clc: device selection, option parsing and the
compile/extract/write pipeline.

A shallow embedding of `src/clc.c`.  The OpenCL driver and libc are the
environment: what they answer is an input of the model, what the program asks
of them and prints is recorded as a trace of events.
-/

set_option autoImplicit false
set_option maxRecDepth 8192

namespace Clc

/-- The contents of a NUL-terminated C string (the bytes before the NUL). -/
abbrev CStr := List Char

/-! ## Constants of the OpenCL header (`CL/cl.h`) -/

/-- The constant `CL_DEVICE_TYPE_DEFAULT` is `(1 << 0)`. -/
def CL_DEVICE_TYPE_DEFAULT : Nat := 1 <<< 0
/-- The constant `CL_DEVICE_TYPE_CPU` is `(1 << 1)`. -/
def CL_DEVICE_TYPE_CPU : Nat := 1 <<< 1
/-- The constant `CL_DEVICE_TYPE_GPU` is `(1 << 2)`. -/
def CL_DEVICE_TYPE_GPU : Nat := 1 <<< 2
/-- The constant `CL_DEVICE_TYPE_ACCELERATOR` is `(1 << 3)`. -/
def CL_DEVICE_TYPE_ACCELERATOR : Nat := 1 <<< 3

/-! ## The catalog: `gPlatforms`, `gPlatformNames`, `gNumDevices`, `gDevices` -/

/-- One entry `gDevices[i][j]`: the handle together with what the driver holds
for it: its name (`CL_DEVICE_NAME`) and vendor (`CL_DEVICE_VENDOR`), of any
length, and its class bitmask (`CL_DEVICE_TYPE`). -/
structure Device where
  id : Nat
  name : CStr
  vendor : CStr
  typ : Nat
  deriving DecidableEq, Repr

/-- One platform `i`: its name and vendor as the driver holds them (copied to
`gPlatformNames[i]` and `gPlatformVendors[i]` by `get_platforms`, which ends
the process when one of them does not fit) and the array `gDevices[i]` of
length `gNumDevices[i]`. -/
structure Platform where
  name : CStr
  vendor : CStr
  devices : List Device
  deriving DecidableEq, Repr

/-- The platforms in discovery order (`gNumPlatforms` is the length). -/
abbrev Catalog := List Platform

/-- How a call that does not return ends the process. -/
inductive Fatal where
  /-- The call `errx(1, msg)`: exit status 1. -/
  | errx (msg : String)
  /-- A failed `assert`: the process aborts. -/
  | assert (msg : String)
  /-- A call `errx(1, fmt)` whose format has conversions for which no argument
  is passed: the behaviour is undefined. -/
  | errx_missing_args (fmt : String)
  deriving DecidableEq, Repr

/-- The result of a function that either returns a value or ends the process. -/
inductive Outcome (α : Type) where
  | ok (a : α)
  | fatal (f : Fatal)
  deriving DecidableEq, Repr

/-- The test `!strcmp(a, b)` on the contents of two C strings. -/
def strcmp_zero (a b : CStr) : Bool := decide (a = b)

/-- The size of the arrays `char name[128]` and `char vendor[128]`. -/
def NAME_SIZE : Nat := 128

/-- The size `PNAME_SIZE` of the buffers `get_platforms` allocates. -/
def PNAME_SIZE : Nat := 128

/-- The string in a buffer after `clGetDeviceInfo(dev, param, size, buf, NULL)`
for a string parameter: the driver stores the value and its NUL when they fit
in `size` bytes, and otherwise answers `CL_INVALID_VALUE` and leaves the buffer
as it was.  The callers of this file ignore the answer. -/
def clGetDeviceInfo_str (value : CStr) (size : Nat) (buf : CStr) : CStr :=
  if value.length + 1 ≤ size then value else buf

/-- The inner loop of `get_device_for_keys` (lines 272-277) on the array
`name`: each device's name is read into `name` and compared with `devName`;
the result is the device returned, or `name` as the loop leaves it. -/
def get_device_for_keys_inner (devName : CStr) : CStr → List Device → Device ⊕ CStr
  | name, [] => .inr name
  | name, d :: ds =>
    if strcmp_zero devName (clGetDeviceInfo_str d.name NAME_SIZE name) then .inl d
    else get_device_for_keys_inner devName (clGetDeviceInfo_str d.name NAME_SIZE name) ds

/-- Function `get_device_for_keys` (lines 265-282): platforms in order; in each
one whose name compares equal to `platformName` the devices in order.  The
third argument is the array `name`, on entry whatever the stack holds.  Falling
out of the outer loop reaches `errx(1, "could not find device '%s/%s'\n")`, a
call with two `%s` and no argument for them. -/
def get_device_for_keys (platformName devName : CStr) : CStr → Catalog → Outcome Device
  | _, [] => .fatal (.errx_missing_args "could not find device '%s/%s'")
  | name, p :: ps =>
    if strcmp_zero p.name platformName then
      match get_device_for_keys_inner devName name p.devices with
      | .inl d => .ok d
      | .inr name2 => get_device_for_keys platformName devName name2 ps
    else get_device_for_keys platformName devName name ps

/-- One of the four inner loops of `get_default_device`: the first device of
the array with `typ & mask` non-zero. -/
def get_default_device_pass (mask : Nat) : List Device → Option Device
  | [] => none
  | d :: ds =>
    if d.typ &&& mask ≠ 0 then some d
    else get_default_device_pass mask ds

/-- Function `get_default_device` (lines 286-313): per platform the four passes
DEFAULT, GPU, ACCELERATOR, CPU; falling out of the outer loop reaches
`assert(0 && "should not be reached")`. -/
def get_default_device : Catalog → Outcome Device
  | [] => .fatal (.assert "should not be reached")
  | p :: ps =>
    match get_default_device_pass CL_DEVICE_TYPE_DEFAULT p.devices with
    | some d => .ok d
    | none =>
    match get_default_device_pass CL_DEVICE_TYPE_GPU p.devices with
    | some d => .ok d
    | none =>
    match get_default_device_pass CL_DEVICE_TYPE_ACCELERATOR p.devices with
    | some d => .ok d
    | none =>
    match get_default_device_pass CL_DEVICE_TYPE_CPU p.devices with
    | some d => .ok d
    | none => get_default_device ps

/-! ## The reference policy of the specification -/

/-- The four device classes of the specification's data model. -/
inductive DeviceClass where
  | Default | CPU | GPU | Accelerator
  deriving DecidableEq, Repr

/-- The bit of the class bitmask that stands for a class. -/
def DeviceClass.bit : DeviceClass → Nat
  | .Default => 0
  | .CPU => 1
  | .GPU => 2
  | .Accelerator => 3

/-- A device's class bitmask includes the class `c`. -/
def Device.includes (d : Device) (c : DeviceClass) : Bool := d.typ.testBit c.bit

/-- A device whose class includes Default, GPU, Accelerator or CPU. -/
def Device.eligible (d : Device) : Bool :=
  d.includes .Default || d.includes .GPU || d.includes .Accelerator || d.includes .CPU

/-- The reference policy in the specification's words: in the first platform
that has any eligible device, the first device that includes Default, else
the first that includes GPU, else Accelerator, else CPU. -/
def reference_default (cat : Catalog) : Option Device :=
  match cat.find? (fun p => p.devices.any Device.eligible) with
  | none => none
  | some p =>
    p.devices.find? (fun d => d.includes .Default) <|>
    p.devices.find? (fun d => d.includes .GPU) <|>
    p.devices.find? (fun d => d.includes .Accelerator) <|>
    p.devices.find? (fun d => d.includes .CPU)

/-- The catalog of the scenarios: one platform "Acme" with the given devices. -/
def acme (devs : List Device) : Catalog := [⟨"Acme".toList, "Acme Corp".toList, devs⟩]

/-- Device "X" of the scenarios, with a given class bitmask. -/
def devX (typ : Nat) : Device := ⟨1, "X".toList, "Acme Corp".toList, typ⟩

/-- Device "Y" of the scenarios, with a given class bitmask. -/
def devY (typ : Nat) : Device := ⟨2, "Y".toList, "Acme Corp".toList, typ⟩

/-! ## C strings and pointers (`parseopts`) -/

/-- The NUL byte that ends a C string. -/
def NUL : Char := Char.ofNat 0

/-- The newline character. -/
def NL : Char := Char.ofNat 10

/-- A `char *`: the bytes of the buffer it points into and the offset. -/
structure CharPtr where
  buf : List Char
  off : Nat
  deriving DecidableEq, Repr

/-- The C string at a pointer: the bytes from the offset up to the first NUL. -/
def CharPtr.str (p : CharPtr) : CStr := (p.buf.drop p.off).takeWhile (fun c => c != NUL)

/-- The call `strdup(s)`: a fresh buffer holding the bytes of `s` and a NUL. -/
def strdup (s : CStr) : CharPtr := ⟨s ++ [NUL], 0⟩

/-- The call `strchr(p, c)`: a pointer to the first `c` in the string at `p`, or NULL. -/
def strchr (p : CharPtr) (c : Char) : Option CharPtr :=
  if p.str.indexOf c < p.str.length then some ⟨p.buf, p.off + p.str.indexOf c⟩ else none

/-- The global `options` (lines 105-111); `none` is the NULL pointer. -/
structure Options where
  infile : Option CharPtr
  outfile : Option CharPtr
  platform : Option CharPtr
  device : Option CharPtr
  shouldListPlatforms : Int
  deriving DecidableEq, Repr

/-- The initial value `{NULL, NULL, NULL, NULL, 0}` of `options`. -/
def options_init : Options := ⟨none, none, none, none, 0⟩

/-- What one call of `getopt(argc, argv, "c:o:a:l")` hands to the loop body:
the option character, with `optarg` for the three options that take one;
`unknown` is the answer `'?'`. -/
inductive GetoptResult where
  | c (optarg : CStr)
  | o (optarg : CStr)
  | a (optarg : CStr)
  | l
  | unknown
  deriving DecidableEq, Repr

/-- The text `usage()` prints (lines 117-127), line by line. -/
def usage_text : List CStr :=
  ["OpenCL compiler and syntax checker".toList,
   "----------------------------------".toList,
   "Options:".toList,
   "  -c <IN FILENAME> : File to compile.".toList,
   "  -o <OUT FILENAME>: Rename out file (default: '<IN FILENAME>.clo').".toList,
   "  -a <ARCH NAME>   : Architecture to compile for, string of format".toList,
   "                     '<PLATFORM>/<DEVICE>'. The default is first platform and".toList,
   "                     the default device is the first device ordered by class".toList,
   "                     in priority of DEFAULT, GPU, ACCELERATOR, CPU.".toList,
   "  -l               : List all platforms and devices on the system.".toList]

/-- How `parseopts` ends. -/
inductive Parsed where
  /-- It returns, with `options` set. -/
  | ok (o : Options)
  /-- The call `usage()`: the usage text and `exit(0)`. -/
  | usage
  /-- The pointer `strchr(...) + 1` was computed from NULL. -/
  | undefined
  deriving DecidableEq, Repr

/-- The `switch (ch)` of `parseopts` (lines 142-159). -/
def parseopts_switch (o : Options) : GetoptResult → Parsed
  | .c optarg => .ok { o with infile := some (strdup optarg) }
  | .o optarg => .ok { o with outfile := some (strdup optarg) }
  | .a optarg =>
    let platform := strdup optarg
    match strchr platform '/' with
    | some q => .ok { o with platform := some platform, device := some ⟨q.buf, q.off + 1⟩ }
    | none => .undefined
  | .l => .ok { o with shouldListPlatforms := 1 }
  | .unknown => .usage

/-- The `while` loop of `parseopts` over the answers of `getopt`. -/
def parseopts_loop (o : Options) : List GetoptResult → Parsed
  | [] => .ok o
  | g :: gs =>
    match parseopts_switch o g with
    | .ok o2 => parseopts_loop o2 gs
    | .usage => .usage
    | .undefined => .undefined

/-- Function `parseopts` (lines 133-170): the loop, `usage()` when no option was seen
(`options_set` is true exactly when the loop body ran), and the default
`<infile>.clo` for the output file. -/
def parseopts (args : List GetoptResult) : Parsed :=
  match parseopts_loop options_init args with
  | .ok o =>
    if args.isEmpty then .usage
    else
      match o.infile, o.outfile with
      | some inf, none => .ok { o with outfile := some ⟨inf.str ++ ".clo".toList ++ [NUL], 0⟩ }
      | _, _ => .ok o
  | .usage => .usage
  | .undefined => .undefined

/-! ## The driver and the trace of a run (`main`) -/

/-- What `clBuildProgram` returns. -/
inductive BuildStatus where
  | CL_SUCCESS
  | CL_BUILD_PROGRAM_FAILURE
  | other (code : Int)
  deriving DecidableEq, Repr

/-- The three queries `main` makes with `clGetProgramInfo`. -/
inductive ProgramInfo where
  | CL_PROGRAM_NUM_DEVICES
  | CL_PROGRAM_BINARY_SIZES
  | CL_PROGRAM_BINARIES
  deriving DecidableEq, Repr

/-- The answers of the OpenCL driver and of the system in one run. -/
structure Driver where
  /-- The tables `get_platforms` and `get_devices` build; `none` when one of
  their driver calls fails. -/
  catalog : Option Catalog
  /-- Both driver calls of `create_context` succeed. -/
  context : Bool
  /-- The result of `clBuildProgram`. -/
  build : BuildStatus
  /-- The build log the driver holds for the program. -/
  buildLog : CStr
  /-- The `cl_uint` answer to `CL_PROGRAM_NUM_DEVICES`; `none` when the query fails. -/
  numDevices : Option Nat
  /-- The answer to `CL_PROGRAM_BINARY_SIZES` per device index; `none` when the query fails. -/
  binarySizes : Option (Nat → Nat)
  /-- The binary the driver copies out per device index; `none` when the query fails. -/
  binaries : Option (Nat → List Nat)
  /-- The bytes `alloca` finds in the buffer of device `i` before it is filled. -/
  stack : Nat → Nat → Nat
  /-- What `write` returns for the file of device `i`. -/
  written : Nat → Int
  /-- What the stack holds where an array `name` is declared. -/
  name_stack : CStr
  /-- What the stack holds where the array `vendor` is declared. -/
  vendor_stack : CStr

/-- What a run does that can be seen from outside. -/
inductive Event where
  | stdout (lines : List CStr)
  | stderr (text : CStr)
  | errx (msg : String)
  | assert_failed (msg : String)
  | clBuildProgram (res : BuildStatus)
  | clGetProgramBuildInfo
  | clGetProgramInfo (param : ProgramInfo)
  /-- The call `open(tmp, O_CREAT|O_RDWR)`; `none` when `sprintf` overran `tmp`. -/
  | sys_open (path : Option CStr)
  /-- The call `write(fd, buf, nbyte)` on the file opened under `path`. -/
  | sys_write (path : Option CStr) (buf : List Nat) (nbyte : Nat)
  deriving DecidableEq, Repr

/-- How the process ends. -/
inductive Exit where
  | status (code : Nat)
  | abort
  | undefined
  deriving DecidableEq, Repr

/-- One run of the program: what it did and how it ended. -/
structure Run where
  trace : List Event
  exit : Exit
  deriving DecidableEq, Repr

/-- The run of a call that ends the process. -/
def Fatal.run : Fatal → Run
  | .errx msg => ⟨[.errx msg], .status 1⟩
  | .assert msg => ⟨[.assert_failed msg], .abort⟩
  | .errx_missing_args _ => ⟨[], .undefined⟩

/-! ### Listing mode -/

/-- The conversion `%d` applied to a 32-bit `unsigned` argument. -/
def fmt_d (i : Nat) : CStr :=
  if i % 2 ^ 32 < 2 ^ 31 then Nat.toDigits 10 (i % 2 ^ 32)
  else '-' :: Nat.toDigits 10 (2 ^ 32 - i % 2 ^ 32)

/-- One line `"%u: '%s' / '%s'\n"` of `list_platforms`, without the newline. -/
def list_platforms_line (i : Nat) (p : Platform) : CStr :=
  Nat.toDigits 10 i ++ ": '".toList ++ p.vendor ++ "' / '".toList ++ p.name ++ "'".toList

/-- Function `list_platforms` (lines 209-217). -/
def list_platforms (cat : Catalog) : List CStr :=
  ["Platforms supported on THIS machine:".toList, "ID: VENDOR / NAME".toList]
    ++ (List.range cat.length).zipWith list_platforms_line cat

/-- One line of `list_devices` (lines 254-260), without the newline, from the
variable `typ` and the arrays `vendor` and `name`. -/
def list_devices_line (i : Nat) (typ : Nat) (vendor name : CStr) : CStr :=
  fmt_d i ++ ": '".toList ++ vendor ++ "' / '".toList ++ name ++ "' ".toList
    ++ (if typ &&& CL_DEVICE_TYPE_CPU ≠ 0 then "-processor-".toList else [])
    ++ (if typ &&& CL_DEVICE_TYPE_GPU ≠ 0 then "-graphics processor-".toList else [])
    ++ (if typ &&& CL_DEVICE_TYPE_ACCELERATOR ≠ 0 then "-accellerator-".toList else [])
    ++ (if typ &&& CL_DEVICE_TYPE_DEFAULT ≠ 0 then "-default-".toList else [])

/-- The inner loop of `list_devices` (lines 248-261) for platform `i`: the
lines printed and the arrays `name` and `vendor` as the loop leaves them. -/
def list_devices_inner (i : Nat) : CStr → CStr → List Device → List CStr × CStr × CStr
  | name, vendor, [] => ([], name, vendor)
  | name, vendor, d :: ds =>
    let name2 := clGetDeviceInfo_str d.name NAME_SIZE name
    let vendor2 := clGetDeviceInfo_str d.vendor NAME_SIZE vendor
    let rest := list_devices_inner i name2 vendor2 ds
    (list_devices_line i d.typ vendor2 name2 :: rest.1, rest.2)

/-- The outer loop of `list_devices` (lines 247-262) from platform index `i` on. -/
def list_devices_outer : Nat → CStr → CStr → Catalog → List CStr
  | _, _, _, [] => []
  | i, name, vendor, p :: ps =>
    let r := list_devices_inner i name vendor p.devices
    r.1 ++ list_devices_outer (i + 1) r.2.1 r.2.2 ps

/-- Function `list_devices` (lines 237-263); `name` and `vendor` are the two
arrays as the stack holds them on entry. -/
def list_devices (name vendor : CStr) (cat : Catalog) : List CStr :=
  ["Devices supported on THIS machine:".toList, "PLATFORM ID: VENDOR / NAME TYPE".toList]
    ++ list_devices_outer 0 name vendor cat

/-- The loop of `get_platforms` (lines 196-206): `clGetPlatformInfo` must store
each name and each vendor with its NUL in `PNAME_SIZE` bytes, or the process
ends in `errx`. -/
def get_platforms_loop : Catalog → Option Fatal
  | [] => none
  | p :: ps =>
    if ¬ (p.name.length + 1 ≤ PNAME_SIZE) then some (.errx "could not read platform name")
    else if ¬ (p.vendor.length + 1 ≤ PNAME_SIZE) then
      some (.errx "could not read platform vendor")
    else get_platforms_loop ps

/-! ### The build log -/

/-- The size `sizeof(buildlog)` of `char buildlog[128*1024]`. -/
def buildlog_size : Nat := 128 * 1024

/-- The call `clGetProgramBuildInfo(.., CL_PROGRAM_BUILD_LOG, size, buf, NULL)`:
the driver copies the log and its NUL into the buffer when they fit in `size`
bytes, and otherwise answers `CL_INVALID_VALUE` and leaves the buffer alone. -/
def clGetProgramBuildInfo (log : CStr) (size : Nat) (buf : List Char) : List Char :=
  if log.length + 1 ≤ size then log ++ NUL :: buf.drop (log.length + 1) else buf

/-- Lines 389-391 on a buffer of `size` bytes: fetch the log into the
zero-initialised static buffer, store a NUL at index 1023, print the buffer
with `"%s\n"`. -/
def emit_buildlog (size : Nat) (log : CStr) : CStr :=
  let buildlog := List.replicate size NUL
  let buildlog := clGetProgramBuildInfo log size buildlog
  let buildlog := buildlog.set 1023 NUL
  CharPtr.str ⟨buildlog, 0⟩ ++ [NL]

/-- The `switch (res)` after `clBuildProgram` (lines 384-395): the events, and
the fatal exit of the `default` branch if it is taken. -/
def main_build (drv : Driver) : List Event × Option Fatal :=
  match drv.build with
  | .CL_SUCCESS => ([.clBuildProgram .CL_SUCCESS], none)
  | .CL_BUILD_PROGRAM_FAILURE =>
    ([.clBuildProgram .CL_BUILD_PROGRAM_FAILURE, .clGetProgramBuildInfo,
      .stderr (emit_buildlog buildlog_size drv.buildLog)], none)
  | .other code =>
    ([.clBuildProgram (.other code)], some (.errx "unhandled error when building program"))

/-! ### Extraction of the binaries -/

/-- The call `alloca(n)`: `n` bytes with whatever the stack holds. -/
def alloca (junk : Nat → Nat) (n : Nat) : List Nat := (List.range n).map junk

/-- The driver copies a binary into a caller's buffer (the buffer keeps its size). -/
def fill (buf data : List Nat) : List Nat := data.take buf.length ++ buf.drop data.length

/-- The variables `devices`, `binsizes` and `binaries` after line 422. -/
structure Extracted where
  devices : Nat
  binsizes : List Nat
  binaries : List (List Nat)
  deriving DecidableEq, Repr

/-- Lines 398-422: the three `clGetProgramInfo` queries with their `errx`
exits, and the `alloca` of `binsizes[i]` bytes per device in between. -/
def main_extract (drv : Driver) : List Event × Outcome Extracted :=
  match drv.numDevices with
  | none =>
    ([.clGetProgramInfo .CL_PROGRAM_NUM_DEVICES],
      .fatal (.errx "could not extract number of devices from prog"))
  | some devices =>
    match drv.binarySizes with
    | none =>
      ([.clGetProgramInfo .CL_PROGRAM_NUM_DEVICES, .clGetProgramInfo .CL_PROGRAM_BINARY_SIZES],
        .fatal (.errx "could not extract binary sizes"))
    | some sizes =>
      let binsizes := (List.range devices).map sizes
      let binaries := (List.range devices).map (fun i => alloca (drv.stack i) (binsizes.getD i 0))
      match drv.binaries with
      | none =>
        ([.clGetProgramInfo .CL_PROGRAM_NUM_DEVICES, .clGetProgramInfo .CL_PROGRAM_BINARY_SIZES,
          .clGetProgramInfo .CL_PROGRAM_BINARIES],
          .fatal (.errx "could not extract binaries"))
      | some data =>
        ([.clGetProgramInfo .CL_PROGRAM_NUM_DEVICES, .clGetProgramInfo .CL_PROGRAM_BINARY_SIZES,
          .clGetProgramInfo .CL_PROGRAM_BINARIES],
          .ok ⟨devices, binsizes,
            (List.range devices).map (fun i => fill (binaries.getD i []) (data i))⟩)

/-! ### Writing the files -/

/-- The call `sprintf(tmp, ...)` into `char tmp[cap]`: the text when it fits with its
NUL, `none` when it runs over the end of the array. -/
def sprintf (cap : Nat) (text : CStr) : Option CStr :=
  if text.length + 1 ≤ cap then some text else none

/-- Lines 424-431: the name in `tmp`, an array of `strlen(outfile) + 4` bytes,
for device index `i` of `devices`. -/
def output_name (outfile : CStr) (devices i : Nat) : Option CStr :=
  if devices > 1 then sprintf (outfile.length + 4) (outfile ++ '.' :: fmt_d i)
  else sprintf (outfile.length + 4) outfile

/-- The body of the loop of lines 426-440 for device index `i`. -/
def main_write_one (outfile : CStr) (ex : Extracted) (drv : Driver) (i : Nat) : List Event :=
  let tmp := output_name outfile ex.devices i
  [.sys_open tmp, .sys_write tmp (ex.binaries.getD i []) (ex.binsizes.getD i 0)]
    ++ (if drv.written i ≠ (ex.binsizes.getD i 0 : Int)
        then [.stderr ("did not write full file".toList ++ [NL])] else [])

/-- The loop of lines 426-440. -/
def main_write (outfile : CStr) (ex : Extracted) (drv : Driver) : List Event :=
  (List.range ex.devices).flatMap (main_write_one outfile ex drv)

/-! ### `main` -/

/-- Lines 367-372: the default device unless both names are set; `name` is
what the stack holds where `get_device_for_keys` declares its array. -/
def main_select (o : Options) (cat : Catalog) (name : CStr) : Outcome Device :=
  match o.platform, o.device with
  | some p, some d => get_device_for_keys p.str d.str name cat
  | _, _ => get_default_device cat

/-- Lines 398-442: extract, write, `return 0`; `strlen(options.outfile)` on a
NULL pointer is undefined. -/
def main_finish (o : Options) (drv : Driver) : Run :=
  match main_extract drv with
  | (t2, .fatal f) => ⟨t2 ++ f.run.trace, f.run.exit⟩
  | (t2, .ok ex) =>
    match o.outfile with
    | none => ⟨t2, .undefined⟩
    | some outfile => ⟨t2 ++ main_write outfile.str ex drv, .status 0⟩

/-- Lines 376-442: build, then the rest unless the `default` branch of the
`switch` ended the process. -/
def main_compile (o : Options) (drv : Driver) : Run :=
  match main_build drv with
  | (t1, some f) => ⟨t1 ++ f.run.trace, f.run.exit⟩
  | (t1, none) => ⟨t1 ++ (main_finish o drv).trace, (main_finish o drv).exit⟩

/-- The calls of `write` in a trace, in order: path, buffer and byte count. -/
def writes : List Event → List (Option CStr × List Nat × Nat)
  | [] => []
  | .sys_write path buf nbyte :: es => (path, buf, nbyte) :: writes es
  | _ :: es => writes es

/-- Function `main` (lines 355-443) on the answers of `getopt` and of the driver. -/
def main (args : List GetoptResult) (drv : Driver) : Run :=
  match parseopts args with
  | .usage => ⟨[.stdout usage_text], .status 0⟩
  | .undefined => ⟨[], .undefined⟩
  | .ok o =>
    match drv.catalog with
    | none => (Fatal.errx "platform or device enumeration failed").run
    | some cat =>
      match get_platforms_loop cat with
      | some f => f.run
      | none =>
        if o.shouldListPlatforms ≠ 0 then
          ⟨[.stdout (list_platforms cat),
            .stdout (list_devices drv.name_stack drv.vendor_stack cat)], .status 0⟩
        else
          match main_select o cat drv.name_stack with
          | .fatal f => f.run
          | .ok _ =>
            if drv.context then main_compile o drv
            else (Fatal.errx "could not create context").run

/-! ## Concrete catalogs and drivers -/

/-- A catalog with three platforms named "Acme" and four devices named "X". -/
def twins : Catalog :=
  [⟨"Apex".toList, [], [⟨10, "X".toList, [], 2⟩]⟩,
   ⟨"Acme".toList, [], [⟨20, "Y".toList, [], 2⟩]⟩,
   ⟨"Acme".toList, [], [⟨30, "W".toList, [], 4⟩, ⟨31, "X".toList, [], 4⟩, ⟨32, "X".toList, [], 2⟩]⟩,
   ⟨"Acme".toList, [], [⟨40, "X".toList, [], 1⟩]⟩]

/-- A device name of 128 bytes: with its NUL it does not fit in `char name[128]`. -/
def long_name : CStr := List.replicate 128 'n'

/-- Platform "Acme" with the device "X" and a device that has the long name. -/
def acme_long : Catalog := acme [devX 2, ⟨3, long_name, "Acme Corp".toList, 4⟩]

/-- The binaries of a program on two devices: three bytes and two bytes. -/
def two_binaries (i : Nat) : List Nat := if i = 0 then [1, 2, 3] else [4, 5]

/-- A driver that answers every call with success: the catalog given, a build
without errors, `n` devices for the program, the binary `bin i` for device `i`. -/
def driver_ok (cat : Catalog) (n : Nat) (bin : Nat → List Nat) : Driver where
  catalog := some cat
  context := true
  build := .CL_SUCCESS
  buildLog := []
  numDevices := some n
  binarySizes := some (fun i => (bin i).length)
  binaries := some bin
  stack := fun _ _ => 0
  written := fun i => (bin i).length
  name_stack := []
  vendor_stack := []

/-- The driver of a failed build: as `driver_ok`, but `clBuildProgram` answers
`CL_BUILD_PROGRAM_FAILURE` and the driver holds the given log. -/
def driver_fail (cat : Catalog) (log : CStr) (n : Nat) (bin : Nat → List Nat) : Driver :=
  { driver_ok cat n bin with build := .CL_BUILD_PROGRAM_FAILURE, buildLog := log }

/-! ## Device selection: lemmas -/

theorem land_two_pow_ne_zero (x k : Nat) : x &&& 2 ^ k ≠ 0 ↔ x.testBit k = true := by
  constructor
  · intro h
    obtain ⟨i, hi⟩ := Nat.ne_zero_implies_bit_true h
    rw [Nat.testBit_and, Nat.testBit_two_pow] at hi
    simp only [Bool.and_eq_true, decide_eq_true_eq] at hi
    rw [hi.2]; exact hi.1
  · intro h h0
    have : (x &&& 2 ^ k).testBit k = true := by
      rw [Nat.testBit_and, Nat.testBit_two_pow_self, h]; rfl
    rw [h0] at this
    simp at this

theorem pass_eq_find (k : Nat) (ds : List Device) :
    get_default_device_pass (2 ^ k) ds = ds.find? (fun d => d.typ.testBit k) := by
  induction ds with
  | nil => rfl
  | cons d ds ih =>
    by_cases h : d.typ.testBit k = true
    · have h2 : d.typ &&& 2 ^ k ≠ 0 := (land_two_pow_ne_zero _ _).2 h
      simp [get_default_device_pass, h2, List.find?_cons, h]
    · have h2 : ¬ (d.typ &&& 2 ^ k ≠ 0) := fun hc => h ((land_two_pow_ne_zero _ _).1 hc)
      have h3 : d.typ.testBit k = false := by simpa using h
      rw [get_default_device_pass, if_neg h2, ih, List.find?_cons, h3]

theorem pass_default (ds : List Device) :
    get_default_device_pass CL_DEVICE_TYPE_DEFAULT ds = ds.find? (fun d => d.includes .Default) :=
  pass_eq_find 0 ds

theorem pass_cpu (ds : List Device) :
    get_default_device_pass CL_DEVICE_TYPE_CPU ds = ds.find? (fun d => d.includes .CPU) :=
  pass_eq_find 1 ds

theorem pass_gpu (ds : List Device) :
    get_default_device_pass CL_DEVICE_TYPE_GPU ds = ds.find? (fun d => d.includes .GPU) :=
  pass_eq_find 2 ds

theorem pass_accelerator (ds : List Device) :
    get_default_device_pass CL_DEVICE_TYPE_ACCELERATOR ds
      = ds.find? (fun d => d.includes .Accelerator) :=
  pass_eq_find 3 ds

/-- No eligible device in a list: each of the four searches comes back empty. -/
theorem find_none_of_not_eligible (ds : List Device) (c : DeviceClass)
    (h : ds.any Device.eligible = false) : ds.find? (fun d => d.includes c) = none := by
  rw [List.find?_eq_none]
  intro d hd
  have hd2 : d.eligible = false := by
    rw [List.any_eq_false] at h
    simpa using h d hd
  simp only [Device.eligible, Bool.or_eq_false_iff] at hd2
  cases c <;> simp [hd2]

/-- An eligible device in a list: one of the four searches finds something. -/
theorem find_some_of_eligible (ds : List Device) (h : ds.any Device.eligible = true) :
    ds.find? (fun d => d.includes .Default) ≠ none ∨ ds.find? (fun d => d.includes .GPU) ≠ none ∨
    ds.find? (fun d => d.includes .Accelerator) ≠ none ∨ ds.find? (fun d => d.includes .CPU) ≠ none := by
  rw [List.any_eq_true] at h
  obtain ⟨d, hd, he⟩ := h
  simp only [Device.eligible, Bool.or_eq_true] at he
  simp only [ne_eq, List.find?_eq_none, not_forall]
  rcases he with ((h1 | h1) | h1) | h1
  · exact Or.inl ⟨d, hd, by simp [h1]⟩
  · exact Or.inr (Or.inl ⟨d, hd, by simp [h1]⟩)
  · exact Or.inr (Or.inr (Or.inl ⟨d, hd, by simp [h1]⟩))
  · exact Or.inr (Or.inr (Or.inr ⟨d, hd, by simp [h1]⟩))

/-- The code and the reference policy agree on every catalog. -/
theorem get_default_device_eq (cat : Catalog) :
    get_default_device cat =
      (match reference_default cat with
       | some d => Outcome.ok d
       | none => Outcome.fatal (Fatal.assert "should not be reached")) := by
  induction cat with
  | nil => rfl
  | cons p ps ih =>
    rw [get_default_device, pass_default, pass_gpu, pass_accelerator, pass_cpu]
    cases hE : p.devices.any Device.eligible with
    | false =>
      have hr : reference_default (p :: ps) = reference_default ps := by
        simp [reference_default, List.find?_cons, hE]
      rw [hr, ← ih]
      simp [find_none_of_not_eligible _ _ hE]
    | true =>
      have hr : reference_default (p :: ps) =
          (p.devices.find? (fun d => d.includes .Default) <|>
           p.devices.find? (fun d => d.includes .GPU) <|>
           p.devices.find? (fun d => d.includes .Accelerator) <|>
           p.devices.find? (fun d => d.includes .CPU)) := by
        simp [reference_default, List.find?_cons, hE]
      rw [hr]
      have hs := find_some_of_eligible _ hE
      cases h1 : p.devices.find? (fun d => d.includes .Default) with
      | some d => simp
      | none =>
        cases h2 : p.devices.find? (fun d => d.includes .GPU) with
        | some d => simp
        | none =>
          cases h3 : p.devices.find? (fun d => d.includes .Accelerator) with
          | some d => simp
          | none =>
            cases h4 : p.devices.find? (fun d => d.includes .CPU) with
            | some d => simp
            | none => simp [h1, h2, h3, h4] at hs

/-- The reference policy selects nothing exactly when no device is eligible. -/
theorem reference_default_eq_none (cat : Catalog) :
    reference_default cat = none ↔ ∀ p ∈ cat, ∀ d ∈ p.devices, d.eligible = false := by
  constructor
  · intro h p hp d hd
    cases hE : cat.find? (fun p => p.devices.any Device.eligible) with
    | none =>
      rw [List.find?_eq_none] at hE
      have := hE p hp
      simp only [Bool.not_eq_true, List.any_eq_false] at this
      simpa using this d hd
    | some q =>
      have hq := List.find?_some hE
      have hs := find_some_of_eligible _ hq
      simp only [reference_default, hE] at h
      cases h1 : q.devices.find? (fun d => d.includes .Default) <;>
      cases h2 : q.devices.find? (fun d => d.includes .GPU) <;>
      cases h3 : q.devices.find? (fun d => d.includes .Accelerator) <;>
      cases h4 : q.devices.find? (fun d => d.includes .CPU) <;>
      simp [h1, h2, h3, h4] at h hs
  · intro h
    have : cat.find? (fun p => p.devices.any Device.eligible) = none := by
      rw [List.find?_eq_none]
      intro p hp
      simp only [Bool.not_eq_true, List.any_eq_false]
      intro d hd
      simpa using h p hp d hd
    simp [reference_default, this]

/-! ## Default selection: the claims -/

/-- C1: on every catalog `get_default_device` returns exactly the device of the
reference policy (first platform with an eligible device; there the first
Default, else the first GPU, else the first Accelerator, else the first CPU),
and ends in the failed assertion when the policy selects nothing; for one
platform with [X: CPU, Y: GPU] it returns Y, for [X: CPU|Default] it returns X. -/
theorem get_default_device_refines_reference :
    (∀ cat : Catalog, get_default_device cat =
      (match reference_default cat with
       | some d => Outcome.ok d
       | none => Outcome.fatal (Fatal.assert "should not be reached")))
    ∧ get_default_device (acme [devX CL_DEVICE_TYPE_CPU, devY CL_DEVICE_TYPE_GPU])
        = Outcome.ok (devY CL_DEVICE_TYPE_GPU)
    ∧ get_default_device (acme [devX (CL_DEVICE_TYPE_CPU ||| CL_DEVICE_TYPE_DEFAULT)])
        = Outcome.ok (devX (CL_DEVICE_TYPE_CPU ||| CL_DEVICE_TYPE_DEFAULT)) :=
  ⟨get_default_device_eq, by decide, by decide⟩

/-- C9: `get_default_device` ends in its failed assertion, returning no device,
exactly when no device of any platform has a class that includes Default, GPU,
Accelerator or CPU; it returns a device exactly when some device is eligible; a
catalog without any device is such a failure, and no other failure exists. -/
theorem get_default_device_fails_iff (cat : Catalog) :
    (get_default_device cat = Outcome.fatal (Fatal.assert "should not be reached")
      ↔ ∀ p ∈ cat, ∀ d ∈ p.devices, d.eligible = false)
    ∧ ((∃ d, get_default_device cat = Outcome.ok d)
      ↔ ∃ p ∈ cat, ∃ d ∈ p.devices, d.eligible = true)
    ∧ ((∀ p ∈ cat, p.devices = []) →
        get_default_device cat = Outcome.fatal (Fatal.assert "should not be reached"))
    ∧ (∀ f, get_default_device cat = Outcome.fatal f → f = Fatal.assert "should not be reached") := by
  have key := get_default_device_eq cat
  have hn := reference_default_eq_none cat
  cases hr : reference_default cat with
  | none =>
    rw [hr] at key hn
    simp only [true_iff] at hn
    refine ⟨⟨fun _ => hn, fun _ => key⟩, ⟨?_, ?_⟩, fun _ => key, ?_⟩
    · rintro ⟨d, hd⟩
      rw [key] at hd
      exact absurd hd (by simp)
    · rintro ⟨p, hp, d, hd, he⟩
      rw [hn p hp d hd] at he
      exact absurd he (by simp)
    · intro f hf
      rw [key] at hf
      exact (Outcome.fatal.inj hf).symm
  | some d0 =>
    rw [hr] at key hn
    simp only [false_iff, reduceCtorEq] at hn
    have hex : ∃ p ∈ cat, ∃ d ∈ p.devices, d.eligible = true := by
      by_contra hc
      apply hn
      intro p hp d hd
      cases he : d.eligible with
      | false => rfl
      | true => exact absurd ⟨p, hp, d, hd, he⟩ hc
    refine ⟨⟨?_, fun h => absurd h hn⟩, ⟨fun _ => hex, fun _ => ⟨d0, key⟩⟩, ?_, ?_⟩
    · intro h
      rw [key] at h
      exact absurd h (by simp)
    · intro h
      exfalso
      obtain ⟨p, hp, d, hd, he⟩ := hex
      rw [h p hp] at hd
      exact absurd hd (by simp)
    · intro f hf
      rw [key] at hf
      exact absurd hf (by simp)

/-- C9 at a catalog of two platforms without devices: the run ends in the
failed assertion. -/
theorem get_default_device_fails_iff_witness :
    get_default_device [⟨"Acme".toList, [], []⟩, ⟨"Apex".toList, [], []⟩]
      = Outcome.fatal (Fatal.assert "should not be reached") :=
  (get_default_device_fails_iff [⟨"Acme".toList, [], []⟩, ⟨"Apex".toList, [], []⟩]).2.2.1
    (by decide)

/-! ## Explicit selection: lemmas -/

theorem clGetDeviceInfo_str_fit (value buf : CStr) (h : value.length < NAME_SIZE) :
    clGetDeviceInfo_str value NAME_SIZE buf = value := by
  unfold clGetDeviceInfo_str
  rw [if_pos (Nat.succ_le_of_lt h)]

theorem inner_inl (D name : CStr) (ds : List Device) (d : Device)
    (hfit : ∀ x ∈ ds, x.name.length < NAME_SIZE)
    (h : get_device_for_keys_inner D name ds = Sum.inl d) :
    ∃ j : Nat, ds[j]? = some d ∧ d.name = D ∧
      ∀ (j2 : Nat) (d2 : Device), ds[j2]? = some d2 → d2.name = D → j ≤ j2 := by
  induction ds generalizing name with
  | nil => simp [get_device_for_keys_inner] at h
  | cons d0 ds ih =>
    have hr := clGetDeviceInfo_str_fit d0.name name (hfit d0 (List.mem_cons_self _ _))
    have hfit2 : ∀ x ∈ ds, x.name.length < NAME_SIZE :=
      fun x hx => hfit x (List.mem_cons_of_mem _ hx)
    rw [get_device_for_keys_inner, hr] at h
    by_cases h0 : D = d0.name
    · simp only [strcmp_zero, h0, decide_True, if_true, Sum.inl.injEq] at h
      exact ⟨0, by simp [h], by rw [← h, h0], fun j2 _ _ _ => Nat.zero_le j2⟩
    · simp only [strcmp_zero, h0, decide_False, Bool.false_eq_true, if_false] at h
      obtain ⟨j, hj, hn, hmin⟩ := ih d0.name hfit2 h
      refine ⟨j + 1, by simpa using hj, hn, ?_⟩
      intro j2 d2 hj2 hd2
      cases j2 with
      | zero =>
        simp only [List.getElem?_cons_zero, Option.some.injEq] at hj2
        rw [← hj2] at hd2
        exact absurd hd2.symm h0
      | succ j2 =>
        simp only [List.getElem?_cons_succ] at hj2
        exact Nat.succ_le_succ (hmin j2 d2 hj2 hd2)

theorem inner_inr (D name name2 : CStr) (ds : List Device)
    (hfit : ∀ x ∈ ds, x.name.length < NAME_SIZE)
    (h : get_device_for_keys_inner D name ds = Sum.inr name2) :
    ∀ d ∈ ds, d.name ≠ D := by
  induction ds generalizing name with
  | nil => simp
  | cons d0 ds ih =>
    have hr := clGetDeviceInfo_str_fit d0.name name (hfit d0 (List.mem_cons_self _ _))
    have hfit2 : ∀ x ∈ ds, x.name.length < NAME_SIZE :=
      fun x hx => hfit x (List.mem_cons_of_mem _ hx)
    rw [get_device_for_keys_inner, hr] at h
    by_cases h0 : D = d0.name
    · simp [strcmp_zero, h0] at h
    · simp only [strcmp_zero, h0, decide_False, Bool.false_eq_true, if_false] at h
      intro d hd
      rcases List.mem_cons.1 hd with rfl | hd
      · exact fun hc => h0 hc.symm
      · exact ih d0.name hfit2 h d hd

theorem get_platforms_loop_tail (p : Platform) (ps : Catalog)
    (h : get_platforms_loop (p :: ps) = none) : get_platforms_loop ps = none := by
  unfold get_platforms_loop at h
  by_cases h1 : p.name.length + 1 ≤ PNAME_SIZE
  · by_cases h2 : p.vendor.length + 1 ≤ PNAME_SIZE
    · simpa [h1, h2] using h
    · simp [h1, h2] at h
  · simp [h1] at h

/-! ## Explicit selection: the claims -/

/-- C2 (with the bounds of the name buffers): on a catalog that `get_platforms`
accepts (platform names and vendors fit in `PNAME_SIZE` bytes), when some
platform named exactly `P` has a device named exactly `D`, and the device names
of the platforms named `P` fit with their NUL in the 128 bytes of `name`,
`get_device_for_keys P D` returns, whatever `name` holds on entry, a device
named `D` that stands at index `j` of a platform named `P` at index `i`, and
every other such pair of indices comes later in discovery order: a higher
platform index, or the same platform and a device index not below `j`. -/
theorem get_device_for_keys_returns_first (P D name : CStr) (cat : Catalog)
    (hcat : get_platforms_loop cat = none)
    (h : ∃ p ∈ cat, p.name = P ∧ ∃ d ∈ p.devices, d.name = D)
    (hfit : ∀ p ∈ cat, p.name = P → ∀ d ∈ p.devices, d.name.length < NAME_SIZE) :
    ∃ (i j : Nat) (p : Platform) (d : Device),
      cat[i]? = some p ∧ p.devices[j]? = some d ∧ p.name = P ∧ d.name = D ∧
      get_device_for_keys P D name cat = Outcome.ok d ∧
      ∀ (i2 j2 : Nat) (p2 : Platform) (d2 : Device),
        cat[i2]? = some p2 → p2.devices[j2]? = some d2 → p2.name = P → d2.name = D →
        i < i2 ∨ (i = i2 ∧ j ≤ j2) := by
  induction cat generalizing name with
  | nil => simp at h
  | cons p ps ih =>
    have hcat2 := get_platforms_loop_tail p ps hcat
    have hfit2 : ∀ q ∈ ps, q.name = P → ∀ d ∈ q.devices, d.name.length < NAME_SIZE :=
      fun q hq => hfit q (List.mem_cons_of_mem _ hq)
    have hstep : (∃ (j : Nat) (d : Device), p.devices[j]? = some d ∧ p.name = P ∧ d.name = D ∧
          get_device_for_keys P D name (p :: ps) = Outcome.ok d ∧
          ∀ (j2 : Nat) (d2 : Device), p.devices[j2]? = some d2 → d2.name = D → j ≤ j2)
        ∨ ((∀ d ∈ p.devices, p.name = P → d.name ≠ D) ∧
          ∃ name2, get_device_for_keys P D name (p :: ps) = get_device_for_keys P D name2 ps) := by
      by_cases hp : p.name = P
      · have hfp := hfit p (List.mem_cons_self _ _) hp
        cases hin : get_device_for_keys_inner D name p.devices with
        | inl d =>
          obtain ⟨j, hj, hn, hmin⟩ := inner_inl D name p.devices d hfp hin
          exact Or.inl ⟨j, d, hj, hp, hn,
            by simp [get_device_for_keys, strcmp_zero, hp, hin], hmin⟩
        | inr name2 =>
          have hno := inner_inr D name name2 p.devices hfp hin
          exact Or.inr ⟨fun d hd _ => hno d hd, name2,
            by simp [get_device_for_keys, strcmp_zero, hp, hin]⟩
      · exact Or.inr ⟨fun _ _ hc => absurd hc hp, name,
          by simp [get_device_for_keys, strcmp_zero, hp]⟩
    rcases hstep with ⟨j, d, hj, hp, hn, hres, hmin⟩ | ⟨hskip, name2, hrec⟩
    · refine ⟨0, j, p, d, by simp, hj, hp, hn, hres, ?_⟩
      intro i2 j2 p2 d2 hi2 hj2 _ hd2
      cases i2 with
      | zero =>
        simp only [List.getElem?_cons_zero, Option.some.injEq] at hi2
        rw [← hi2] at hj2
        exact Or.inr ⟨rfl, hmin j2 d2 hj2 hd2⟩
      | succ i2 => exact Or.inl (Nat.succ_pos i2)
    · have hps : ∃ q ∈ ps, q.name = P ∧ ∃ d ∈ q.devices, d.name = D := by
        obtain ⟨q, hq, hqn, d, hd, hdn⟩ := h
        rcases List.mem_cons.1 hq with rfl | hq
        · exact absurd hdn (hskip d hd hqn)
        · exact ⟨q, hq, hqn, d, hd, hdn⟩
      obtain ⟨i, j, q, d, hi, hj, hqn, hdn, hres, hmin⟩ := ih name2 hcat2 hps hfit2
      refine ⟨i + 1, j, q, d, by simpa using hi, hj, hqn, hdn, by rw [hrec, hres], ?_⟩
      intro i2 j2 p2 d2 hi2 hj2 hp2 hd2
      cases i2 with
      | zero =>
        simp only [List.getElem?_cons_zero, Option.some.injEq] at hi2
        rw [← hi2] at hj2 hp2
        exact absurd hd2 (hskip d2 (List.getElem?_mem hj2) hp2)
      | succ i2 =>
        simp only [List.getElem?_cons_succ] at hi2
        rcases hmin i2 j2 p2 d2 hi2 hj2 hp2 hd2 with hlt | ⟨heq, hle⟩
        · exact Or.inl (Nat.succ_lt_succ hlt)
        · exact Or.inr ⟨by rw [heq], hle⟩

/-- C2 on a catalog with duplicate names: the pair ("Acme", "X") is listed and
all names fit; the first platform "Acme" has no "X", the second has two, and
the lookup returns the first of those (handle 31). -/
theorem get_device_for_keys_returns_first_witness :
    get_platforms_loop twins = none ∧
    (∃ p ∈ twins, p.name = "Acme".toList ∧ ∃ d ∈ p.devices, d.name = "X".toList) ∧
    (∀ p ∈ twins, p.name = "Acme".toList → ∀ d ∈ p.devices, d.name.length < NAME_SIZE) ∧
    get_device_for_keys "Acme".toList "X".toList "junk".toList twins
      = Outcome.ok ⟨31, "X".toList, [], 4⟩ ∧
    ∃ (i j : Nat) (p : Platform) (d : Device),
      twins[i]? = some p ∧ p.devices[j]? = some d ∧ p.name = "Acme".toList ∧
      d.name = "X".toList ∧
      get_device_for_keys "Acme".toList "X".toList "junk".toList twins = Outcome.ok d ∧
      ∀ (i2 j2 : Nat) (p2 : Platform) (d2 : Device),
        twins[i2]? = some p2 → p2.devices[j2]? = some d2 → p2.name = "Acme".toList →
        d2.name = "X".toList → i < i2 ∨ (i = i2 ∧ j ≤ j2) :=
  ⟨by decide, by decide, by decide, by decide,
   get_device_for_keys_returns_first "Acme".toList "X".toList "junk".toList twins
     (by decide) (by decide) (by decide)⟩

/-- C2 as stated fails: platform "Acme" has a device whose name is 128 bytes
long; `clGetDeviceInfo` cannot store it in `char name[128]`, the array keeps
the name "X" of the device before, and the lookup of that very name returns no
device and reaches the `errx` call.  A platform whose own name is 128 bytes
long never reaches a lookup: `get_platforms` ends the run. -/
theorem get_device_for_keys_misses_long_name :
    (∃ p ∈ acme_long, p.name = "Acme".toList ∧ ∃ d ∈ p.devices, d.name = long_name) ∧
    get_platforms_loop acme_long = none ∧
    get_device_for_keys "Acme".toList long_name [] acme_long
      = Outcome.fatal (Fatal.errx_missing_args "could not find device '%s/%s'") ∧
    (¬ ∃ d, get_device_for_keys "Acme".toList long_name [] acme_long = Outcome.ok d) ∧
    main [GetoptResult.c "k.cl".toList]
        (driver_ok [⟨long_name, "Acme Corp".toList, [devX 2]⟩] 1 (fun _ => [1, 2, 3]))
      = ⟨[Event.errx "could not read platform name"], Exit.status 1⟩ := by
  refine ⟨by decide, by decide, by decide, ?_, by decide⟩
  rintro ⟨d, hd⟩
  have hf : get_device_for_keys "Acme".toList long_name [] acme_long
      = Outcome.fatal (Fatal.errx_missing_args "could not find device '%s/%s'") := by decide
  rw [hf] at hd
  exact absurd hd (by simp)

/-- C3 at the scenario: platform "Acme" has the devices "X" and "Y" and no
device "Z".  The lookup of ("Acme", "Z") returns no device and reaches the call
`errx(1, "could not find device '%s/%s'\n")`, which passes no argument for its
two `%s`: the call is undefined, and so is the end of the run `-a Acme/Z`
(there the lookup is for ("Acme/Z", "Z"), which no catalog entry matches
either); the run does not end in the exit status 1 of a defined `errx`. -/
theorem get_device_for_keys_not_found_undefined :
    (¬ ∃ p ∈ acme [devX 2, devY 4], p.name = "Acme".toList ∧
        ∃ d ∈ p.devices, d.name = "Z".toList) ∧
    get_device_for_keys "Acme".toList "Z".toList [] (acme [devX 2, devY 4])
      = Outcome.fatal (Fatal.errx_missing_args "could not find device '%s/%s'") ∧
    main [GetoptResult.a "Acme/Z".toList, GetoptResult.c "k.cl".toList]
        (driver_ok (acme [devX 2, devY 4]) 1 (fun _ => [1, 2, 3]))
      = ⟨[], Exit.undefined⟩ ∧
    (main [GetoptResult.a "Acme/Z".toList, GetoptResult.c "k.cl".toList]
        (driver_ok (acme [devX 2, devY 4]) 1 (fun _ => [1, 2, 3]))).exit ≠ Exit.status 1 := by
  refine ⟨?_, ?_, ?_, ?_⟩ <;> decide

/-! ## Option parsing -/

theorem takeWhile_append_nul (s rest : List Char) (h : NUL ∉ s) :
    (s ++ NUL :: rest).takeWhile (fun c => c != NUL) = s := by
  induction s with
  | nil => simp [List.takeWhile_cons]
  | cons c cs ih =>
    have hc : c ≠ NUL := fun hc => h (by simp [hc])
    have hcs : NUL ∉ cs := fun hm => h (List.mem_cons_of_mem _ hm)
    simp [List.takeWhile_cons, hc, ih hcs]

theorem str_append_nul (s rest : List Char) (k : Nat) (h : NUL ∉ s) (hk : k ≤ s.length) :
    CharPtr.str ⟨s ++ NUL :: rest, k⟩ = s.drop k := by
  unfold CharPtr.str
  rw [List.drop_append_of_le_length hk]
  exact takeWhile_append_nul _ _ (fun hm => h (List.mem_of_mem_drop hm))

theorem str_strdup (s : CStr) (h : NUL ∉ s) : (strdup s).str = s := by
  have := str_append_nul s [] 0 h (Nat.zero_le _)
  simpa [strdup] using this

/-- What `-a <P>/<D>` alone leaves in `options`: the platform pointer reads
the whole argument, the device pointer reads the text after the first slash. -/
theorem parseopts_arch (P D : CStr) (hP : '/' ∉ P) (hP0 : NUL ∉ P) (hD0 : NUL ∉ D) :
    ∃ p d : CharPtr,
      parseopts [GetoptResult.a (P ++ '/' :: D)] = Parsed.ok ⟨none, none, some p, some d, 0⟩ ∧
      p.str = P ++ '/' :: D ∧ d.str = D := by
  have hnul : NUL ∉ P ++ '/' :: D := by
    intro hm
    rcases List.mem_append.1 hm with h1 | h1
    · exact hP0 h1
    · rcases List.mem_cons.1 h1 with h2 | h2
      · exact absurd h2 (by decide)
      · exact hD0 h2
  have hstr : (strdup (P ++ '/' :: D)).str = P ++ '/' :: D := str_strdup _ hnul
  have hidx : (P ++ '/' :: D).indexOf '/' = P.length := by
    rw [List.indexOf_append_of_not_mem hP, List.indexOf_cons_self]; rfl
  have hch : strchr (strdup (P ++ '/' :: D)) '/'
      = some ⟨(P ++ '/' :: D) ++ [NUL], P.length⟩ := by
    unfold strchr
    rw [hstr, hidx, if_pos (by simp)]
    simp [strdup]
  refine ⟨strdup (P ++ '/' :: D), ⟨(P ++ '/' :: D) ++ [NUL], P.length + 1⟩, ?_, hstr, ?_⟩
  · simp [parseopts, parseopts_loop, parseopts_switch, hch, options_init]
  · have := str_append_nul (P ++ '/' :: D) [] (P.length + 1) hnul (by simp)
    simpa using this

/-! ## Option parsing: the claim -/

/-- C6 at `-a Acme/X`: `parseopts` leaves the whole argument "Acme/X" as the
platform name (no NUL is stored over the slash) and "X" as the device name, so
on a catalog where platform "Acme" has the device "X" the lookup that `main`
makes, of ("Acme/X", "X"), finds nothing and reaches the `errx` call, while the
lookup of ("Acme", "X") finds "X". -/
theorem parseopts_arch_keeps_slash :
    (∃ p d : CharPtr,
      parseopts [GetoptResult.a "Acme/X".toList] = Parsed.ok ⟨none, none, some p, some d, 0⟩ ∧
      p.str = "Acme/X".toList ∧ p.str ≠ "Acme".toList ∧ d.str = "X".toList)
    ∧ main [GetoptResult.a "Acme/X".toList, GetoptResult.c "k.cl".toList]
        (driver_ok (acme [devX 2, devY 4]) 1 (fun _ => [1, 2, 3]))
      = (Fatal.errx_missing_args "could not find device '%s/%s'").run
    ∧ get_device_for_keys "Acme/X".toList "X".toList [] (acme [devX 2, devY 4])
      = Outcome.fatal (Fatal.errx_missing_args "could not find device '%s/%s'")
    ∧ get_device_for_keys "Acme".toList "X".toList [] (acme [devX 2, devY 4])
      = Outcome.ok (devX 2) := by
  refine ⟨?_, by decide, by decide, by decide⟩
  obtain ⟨p, d, h1, h2, h3⟩ :=
    parseopts_arch "Acme".toList "X".toList (by decide) (by decide) (by decide)
  exact ⟨p, d, h1, h2, by rw [h2]; decide, h3⟩

/-! ## The pipeline: lemmas -/

theorem build_not_mem_write (r : BuildStatus) (outfile : CStr) (ex : Extracted) (drv : Driver) :
    Event.clBuildProgram r ∉ main_write outfile ex drv := by
  unfold main_write
  rw [List.mem_flatMap]
  rintro ⟨i, _, hi⟩
  unfold main_write_one at hi
  by_cases hw : drv.written i ≠ (ex.binsizes.getD i 0 : Int)
  · simp [hw] at hi
  · simp [hw] at hi

theorem build_not_mem_finish (r : BuildStatus) (o : Options) (drv : Driver) :
    Event.clBuildProgram r ∉ (main_finish o drv).trace := by
  have hw := build_not_mem_write r
  unfold main_finish main_extract
  cases drv.numDevices <;> cases drv.binarySizes <;> cases drv.binaries <;>
    cases o.outfile <;> simp [Fatal.run, hw]

theorem build_mem_compile (r : BuildStatus) (o : Options) (drv : Driver)
    (h : Event.clBuildProgram r ∈ (main_compile o drv).trace) : drv.build = r := by
  have hf := build_not_mem_finish r o drv
  unfold main_compile main_build at h
  cases hb : drv.build with
  | CL_SUCCESS => exact (by simpa [hb, hf] using h : r = _).symm
  | CL_BUILD_PROGRAM_FAILURE => exact (by simpa [hb, hf] using h : r = _).symm
  | other code => exact (by simpa [hb, hf, Fatal.run] using h : r = _).symm

/-- A run whose trace holds the build event went through `parseopts`, the
enumeration, the selection and the context, and is the run of `main_compile`. -/
theorem main_reaches_build (args : List GetoptResult) (drv : Driver) (r : BuildStatus)
    (h : Event.clBuildProgram r ∈ (main args drv).trace) :
    drv.build = r ∧ ∃ o, parseopts args = Parsed.ok o ∧ main args drv = main_compile o drv := by
  unfold main at h ⊢
  cases hp : parseopts args with
  | usage => simp [hp] at h
  | undefined => simp [hp] at h
  | ok o =>
    simp only [hp] at h ⊢
    cases hc : drv.catalog with
    | none => simp [hc, Fatal.run] at h
    | some cat =>
      simp only [hc] at h ⊢
      cases hg : get_platforms_loop cat with
      | some f => cases f <;> simp [hg, Fatal.run] at h
      | none =>
        simp only [hg] at h ⊢
        by_cases hl : o.shouldListPlatforms ≠ 0
        · simp [hl] at h
        · simp only [hl, if_false] at h ⊢
          cases hs : main_select o cat drv.name_stack with
          | fatal f => cases f <;> simp [hs, Fatal.run] at h
          | ok d =>
            simp only [hs] at h ⊢
            by_cases hx : drv.context = true
            · simp only [hx, if_true] at h ⊢
              exact ⟨build_mem_compile r o drv h, o, rfl, rfl⟩
            · simp [hx, Fatal.run] at h

theorem compile_of_failure (o : Options) (drv : Driver)
    (hb : drv.build = BuildStatus.CL_BUILD_PROGRAM_FAILURE) :
    main_compile o drv =
      ⟨[Event.clBuildProgram BuildStatus.CL_BUILD_PROGRAM_FAILURE, Event.clGetProgramBuildInfo,
        Event.stderr (emit_buildlog buildlog_size drv.buildLog)] ++ (main_finish o drv).trace,
       (main_finish o drv).exit⟩ := by
  simp [main_compile, main_build, hb]

theorem compile_of_success (o : Options) (drv : Driver)
    (hb : drv.build = BuildStatus.CL_SUCCESS) :
    main_compile o drv =
      ⟨Event.clBuildProgram BuildStatus.CL_SUCCESS :: (main_finish o drv).trace,
       (main_finish o drv).exit⟩ := by
  simp [main_compile, main_build, hb]

/-! ## The build log -/

/-- What reaches `stderr` for a log that fits in the buffer: its first 1023
bytes and the newline. -/
theorem emit_buildlog_eq (size : Nat) (log : CStr) (h0 : NUL ∉ log)
    (hfit : log.length + 1 ≤ size) :
    emit_buildlog size log = log.take 1023 ++ [NL] := by
  unfold emit_buildlog clGetProgramBuildInfo
  simp only [if_pos hfit]
  congr 1
  by_cases hlen : 1023 < log.length
  · rw [List.set_append_left _ _ hlen, List.set_eq_take_append_cons_drop, if_pos hlen,
      List.append_assoc, List.cons_append]
    have hn : NUL ∉ log.take 1023 := fun hm => h0 (List.mem_of_mem_take hm)
    exact str_append_nul (log.take 1023) _ 0 hn (Nat.zero_le _)
  · have hle : log.length ≤ 1023 := Nat.le_of_not_lt hlen
    rw [List.set_append_right _ _ hle, List.take_of_length_le hle]
    cases 1023 - log.length with
    | zero => exact str_append_nul log _ 0 h0 (Nat.zero_le _)
    | succ m => exact str_append_nul log _ 0 h0 (Nat.zero_le _)

/-! ## Extraction and writing: lemmas -/

theorem getD_map_range {α : Type} (f : Nat → α) (n i : Nat) (d : α) (h : i < n) :
    ((List.range n).map f).getD i d = f i := by
  simp [List.getD, List.getElem?_map, List.getElem?_range h]

theorem length_fill (buf data : List Nat) : (fill buf data).length = buf.length := by
  simp only [fill, List.length_append, List.length_take, List.length_drop]
  omega

theorem length_alloca (junk : Nat → Nat) (n : Nat) : (alloca junk n).length = n := by
  simp [alloca]

theorem main_extract_ok (drv : Driver) (n : Nat) (sizes : Nat → Nat) (data : Nat → List Nat)
    (hn : drv.numDevices = some n) (hs : drv.binarySizes = some sizes)
    (hd : drv.binaries = some data) :
    main_extract drv =
      ([Event.clGetProgramInfo ProgramInfo.CL_PROGRAM_NUM_DEVICES,
        Event.clGetProgramInfo ProgramInfo.CL_PROGRAM_BINARY_SIZES,
        Event.clGetProgramInfo ProgramInfo.CL_PROGRAM_BINARIES],
       Outcome.ok ⟨n, (List.range n).map sizes,
        (List.range n).map (fun i => fill (alloca (drv.stack i) (sizes i)) (data i))⟩) := by
  simp only [main_extract, hn, hs, hd]
  congr 3
  apply List.map_congr_left
  intro i hi
  have hi2 : i < n := List.mem_range.1 hi
  rw [getD_map_range _ _ _ _ hi2, getD_map_range _ _ _ _ hi2]

theorem main_finish_ok (o : Options) (p : CharPtr) (drv : Driver) (n : Nat) (sizes : Nat → Nat)
    (data : Nat → List Nat) (ho : o.outfile = some p)
    (hn : drv.numDevices = some n) (hs : drv.binarySizes = some sizes)
    (hd : drv.binaries = some data) :
    main_finish o drv =
      ⟨[Event.clGetProgramInfo ProgramInfo.CL_PROGRAM_NUM_DEVICES,
        Event.clGetProgramInfo ProgramInfo.CL_PROGRAM_BINARY_SIZES,
        Event.clGetProgramInfo ProgramInfo.CL_PROGRAM_BINARIES] ++
        main_write p.str ⟨n, (List.range n).map sizes,
          (List.range n).map (fun i => fill (alloca (drv.stack i) (sizes i)) (data i))⟩ drv,
       Exit.status 0⟩ := by
  simp only [main_finish, main_extract_ok drv n sizes data hn hs hd, ho]

theorem num_devices_mem_finish (o : Options) (drv : Driver) :
    Event.clGetProgramInfo ProgramInfo.CL_PROGRAM_NUM_DEVICES ∈ (main_finish o drv).trace := by
  unfold main_finish main_extract
  cases drv.numDevices <;> cases drv.binarySizes <;> cases drv.binaries <;>
    cases o.outfile <;> simp

theorem exit_finish (o : Options) (drv : Driver) :
    ((main_finish o drv).exit = Exit.status 1
      ↔ (drv.numDevices = none ∨ drv.binarySizes = none ∨ drv.binaries = none))
    ∧ (o.outfile ≠ none → drv.numDevices ≠ none → drv.binarySizes ≠ none →
        drv.binaries ≠ none → (main_finish o drv).exit = Exit.status 0) := by
  unfold main_finish main_extract
  cases drv.numDevices <;> cases drv.binarySizes <;> cases drv.binaries <;>
    cases o.outfile <;> simp [Fatal.run]

/-- The two events of device `i` in the trace of the write loop. -/
theorem mem_main_write (outfile : CStr) (drv : Driver) (n : Nat) (sizes : Nat → Nat)
    (bufs : Nat → List Nat) (i : Nat) (hi : i < n) :
    Event.sys_open (output_name outfile n i)
      ∈ main_write outfile ⟨n, (List.range n).map sizes, (List.range n).map bufs⟩ drv
    ∧ Event.sys_write (output_name outfile n i) (bufs i) (sizes i)
      ∈ main_write outfile ⟨n, (List.range n).map sizes, (List.range n).map bufs⟩ drv := by
  unfold main_write
  simp only [List.mem_flatMap, List.mem_range]
  constructor
  · refine ⟨i, hi, ?_⟩
    simp [main_write_one]
  · refine ⟨i, hi, ?_⟩
    simp only [main_write_one, getD_map_range bufs n i [] hi, getD_map_range sizes n i 0 hi]
    simp

theorem writes_append (a b : List Event) : writes (a ++ b) = writes a ++ writes b := by
  induction a with
  | nil => rfl
  | cons e es ih => cases e <;> simp [writes, ih]

theorem writes_flatMap (l : List Nat) (f : Nat → List Event) :
    writes (l.flatMap f) = l.flatMap (fun i => writes (f i)) := by
  induction l with
  | nil => rfl
  | cons a l ih => simp [List.flatMap_cons, writes_append, ih]

theorem flatMap_eq_map_of_singleton {α β : Type} (l : List α) (g : α → List β) (f : α → β)
    (h : ∀ i ∈ l, g i = [f i]) : l.flatMap g = l.map f := by
  induction l with
  | nil => rfl
  | cons a l ih =>
    rw [List.flatMap_cons, List.map_cons, h a (List.mem_cons_self _ _),
      ih (fun i hi => h i (List.mem_cons_of_mem _ hi))]
    rfl

theorem writes_main_write (outfile : CStr) (drv : Driver) (n : Nat) (sizes : Nat → Nat)
    (bufs : Nat → List Nat) :
    writes (main_write outfile ⟨n, (List.range n).map sizes, (List.range n).map bufs⟩ drv)
      = (List.range n).map (fun i => (output_name outfile n i, bufs i, sizes i)) := by
  unfold main_write
  rw [writes_flatMap]
  apply flatMap_eq_map_of_singleton
  intro i hi
  have hi2 : i < n := List.mem_range.1 hi
  simp only [main_write_one, getD_map_range bufs n i [] hi2, getD_map_range sizes n i 0 hi2]
  by_cases hw : drv.written i ≠ (sizes i : Int)
  · simp [hw, writes]
  · simp [hw, writes]

/-! ## The pipeline: the claims -/

/-- In every run in which `clBuildProgram` reports `CL_BUILD_PROGRAM_FAILURE`
the device-count query is still issued, and when the three queries succeed and
an output path is set, the other two queries are issued too and each of the
`n` reported devices has its output file opened and its buffer handed to
`write`, as after a successful build. -/
theorem build_failure_still_extracts (args : List GetoptResult) (drv : Driver)
    (h : Event.clBuildProgram BuildStatus.CL_BUILD_PROGRAM_FAILURE ∈ (main args drv).trace) :
    Event.clGetProgramInfo ProgramInfo.CL_PROGRAM_NUM_DEVICES ∈ (main args drv).trace ∧
    ∀ (o : Options) (p : CharPtr) (n : Nat) (sizes : Nat → Nat) (data : Nat → List Nat),
      parseopts args = Parsed.ok o → o.outfile = some p → drv.numDevices = some n →
      drv.binarySizes = some sizes → drv.binaries = some data →
      Event.clGetProgramInfo ProgramInfo.CL_PROGRAM_BINARY_SIZES ∈ (main args drv).trace ∧
      Event.clGetProgramInfo ProgramInfo.CL_PROGRAM_BINARIES ∈ (main args drv).trace ∧
      ∀ i, i < n →
        Event.sys_open (output_name p.str n i) ∈ (main args drv).trace ∧
        Event.sys_write (output_name p.str n i)
          (fill (alloca (drv.stack i) (sizes i)) (data i)) (sizes i) ∈ (main args drv).trace := by
  obtain ⟨hb, o, ho, hm⟩ := main_reaches_build args drv _ h
  rw [hm, compile_of_failure o drv hb]
  refine ⟨?_, ?_⟩
  · exact List.mem_append_right _ (num_devices_mem_finish o drv)
  · intro o2 p n sizes data ho2 hp hn hs hd
    have ho3 : o2 = o := by
      rw [ho] at ho2
      exact (Parsed.ok.inj ho2).symm
    rw [ho3] at hp
    rw [main_finish_ok o p drv n sizes data hp hn hs hd]
    refine ⟨by simp, by simp, ?_⟩
    intro i hi
    have hw := mem_main_write p.str drv n sizes
      (fun i => fill (alloca (drv.stack i) (sizes i)) (data i)) i hi
    exact ⟨List.mem_append_right _ (List.mem_append_right _ hw.1),
      List.mem_append_right _ (List.mem_append_right _ hw.2)⟩

/-- C4 at `-c k.cl` with one device and a build that reports
`CL_BUILD_PROGRAM_FAILURE` (the driver then holds an empty binary): the case
ends in `break`, so all three extraction queries are issued and the file
`k.cl.clo` is opened and handed to `write`; when the build reports any other
error the `default` case of the same `switch` ends the run before the queries. -/
theorem build_failure_writes_file :
    Event.clBuildProgram BuildStatus.CL_BUILD_PROGRAM_FAILURE
      ∈ (main [GetoptResult.c "k.cl".toList]
          (driver_fail (acme [devX 2]) "k.cl:1: error".toList 1 (fun _ => []))).trace ∧
    Event.clGetProgramInfo ProgramInfo.CL_PROGRAM_NUM_DEVICES
      ∈ (main [GetoptResult.c "k.cl".toList]
          (driver_fail (acme [devX 2]) "k.cl:1: error".toList 1 (fun _ => []))).trace ∧
    Event.clGetProgramInfo ProgramInfo.CL_PROGRAM_BINARY_SIZES
      ∈ (main [GetoptResult.c "k.cl".toList]
          (driver_fail (acme [devX 2]) "k.cl:1: error".toList 1 (fun _ => []))).trace ∧
    Event.clGetProgramInfo ProgramInfo.CL_PROGRAM_BINARIES
      ∈ (main [GetoptResult.c "k.cl".toList]
          (driver_fail (acme [devX 2]) "k.cl:1: error".toList 1 (fun _ => []))).trace ∧
    Event.sys_open (some "k.cl.clo".toList)
      ∈ (main [GetoptResult.c "k.cl".toList]
          (driver_fail (acme [devX 2]) "k.cl:1: error".toList 1 (fun _ => []))).trace ∧
    Event.sys_write (some "k.cl.clo".toList) [] 0
      ∈ (main [GetoptResult.c "k.cl".toList]
          (driver_fail (acme [devX 2]) "k.cl:1: error".toList 1 (fun _ => []))).trace ∧
    (main [GetoptResult.c "k.cl".toList]
        { driver_ok (acme [devX 2]) 1 (fun _ => []) with build := BuildStatus.other (-5) }).trace
      = [Event.clBuildProgram (BuildStatus.other (-5)),
         Event.errx "unhandled error when building program"] := by
  refine ⟨?_, ?_, ?_, ?_, ?_, ?_, ?_⟩ <;> decide

/-- In every run in which `clBuildProgram` reports `CL_BUILD_PROGRAM_FAILURE`
the buffer is printed on `stderr` and the run goes on; it ends with exit status
1 exactly when one of the three program queries fails, and with exit status 0
when all three succeed and an output path is set. -/
theorem build_failure_exit_status (args : List GetoptResult) (drv : Driver)
    (h : Event.clBuildProgram BuildStatus.CL_BUILD_PROGRAM_FAILURE ∈ (main args drv).trace) :
    Event.stderr (emit_buildlog buildlog_size drv.buildLog) ∈ (main args drv).trace ∧
    ((main args drv).exit = Exit.status 1
      ↔ (drv.numDevices = none ∨ drv.binarySizes = none ∨ drv.binaries = none)) ∧
    ∀ o : Options, parseopts args = Parsed.ok o → o.outfile ≠ none →
      drv.numDevices ≠ none → drv.binarySizes ≠ none → drv.binaries ≠ none →
      (main args drv).exit = Exit.status 0 := by
  obtain ⟨hb, o, ho, hm⟩ := main_reaches_build args drv _ h
  rw [hm, compile_of_failure o drv hb]
  refine ⟨by simp, (exit_finish o drv).1, ?_⟩
  intro o2 ho2 hp hn hs hd
  have ho3 : o2 = o := by
    rw [ho] at ho2
    exact (Parsed.ok.inj ho2).symm
  rw [ho3] at hp
  exact (exit_finish o drv).2 hp hn hs hd

/-- C5 at `-c k.cl` with one device and a build that reports
`CL_BUILD_PROGRAM_FAILURE`: the case ends in `break` and the run reaches
`return 0`, so the process ends with exit status 0; when the build reports any
other error the `default` case of the same `switch` ends it with status 1. -/
theorem build_failure_exits_zero :
    Event.clBuildProgram BuildStatus.CL_BUILD_PROGRAM_FAILURE
      ∈ (main [GetoptResult.c "k.cl".toList]
          (driver_fail (acme [devX 2]) "k.cl:1: error".toList 1 (fun _ => []))).trace ∧
    (main [GetoptResult.c "k.cl".toList]
          (driver_fail (acme [devX 2]) "k.cl:1: error".toList 1 (fun _ => []))).exit = Exit.status 0 ∧
    (main [GetoptResult.c "k.cl".toList]
          (driver_fail (acme [devX 2]) "k.cl:1: error".toList 1 (fun _ => []))).exit ≠ Exit.status 1 ∧
    (main [GetoptResult.c "k.cl".toList]
        { driver_ok (acme [devX 2]) 1 (fun _ => []) with build := BuildStatus.other (-5) }).exit
      = Exit.status 1 := by
  refine ⟨?_, ?_, ?_, ?_⟩ <;> decide

/-- C10 at a log of 2000 bytes, far below the 131072 bytes of the buffer: what
reaches `stderr` is the first 1023 bytes, not the log, because of the store
`buildlog[1023] = 0`. -/
theorem buildlog_cut_at_1023 :
    (List.replicate 2000 'e').length < buildlog_size ∧
    emit_buildlog buildlog_size (List.replicate 2000 'e') = List.replicate 1023 'e' ++ [NL] ∧
    emit_buildlog buildlog_size (List.replicate 2000 'e') ≠ List.replicate 2000 'e' ++ [NL] ∧
    Event.stderr (List.replicate 1023 'e' ++ [NL])
      ∈ (main [GetoptResult.c "k.cl".toList]
          (driver_fail (acme [devX 2]) (List.replicate 2000 'e') 1 (fun _ => []))).trace := by
  have hnul : NUL ∉ List.replicate 2000 'e' := by
    intro hm
    exact absurd (List.eq_of_mem_replicate hm) (by decide)
  have hlen : (List.replicate 2000 'e').length = 2000 := List.length_replicate _ _
  have hemit : emit_buildlog buildlog_size (List.replicate 2000 'e')
      = List.replicate 1023 'e' ++ [NL] := by
    rw [emit_buildlog_eq _ _ hnul (by rw [hlen]; decide), List.take_replicate]
    rfl
  refine ⟨by rw [hlen]; decide, hemit, ?_, ?_⟩
  · rw [hemit]
    intro hc
    have := congrArg List.length hc
    rw [List.length_append, List.length_append, List.length_replicate, hlen] at this
    exact absurd this (by decide)
  · obtain ⟨hb, o, _, hm⟩ := main_reaches_build [GetoptResult.c "k.cl".toList]
      (driver_fail (acme [devX 2]) (List.replicate 2000 'e') 1 (fun _ => []))
      BuildStatus.CL_BUILD_PROGRAM_FAILURE (by decide)
    rw [hm, compile_of_failure o _ hb]
    have hl : (driver_fail (acme [devX 2]) (List.replicate 2000 'e') 1 (fun _ => [])).buildLog
        = List.replicate 2000 'e' := rfl
    rw [hl, hemit]
    exact List.mem_append_left _
      (List.mem_cons_of_mem _ (List.mem_cons_of_mem _ (List.mem_cons_self _ _)))

/-! ## File names -/

/-- C8: in a run with a successful build in which the program reports `n`
devices and the sizes `sizes i`, extraction yields exactly `n` buffers, buffer
`i` is `sizes i` bytes long, and the calls of `write` are, in order of `i`,
one per device with buffer `i` and the byte count `sizes i`. -/
theorem extraction_matches_sizes (args : List GetoptResult) (drv : Driver) (o : Options)
    (p : CharPtr) (n : Nat) (sizes : Nat → Nat) (data : Nat → List Nat)
    (h : Event.clBuildProgram BuildStatus.CL_SUCCESS ∈ (main args drv).trace)
    (ho : parseopts args = Parsed.ok o) (hp : o.outfile = some p)
    (hn : drv.numDevices = some n) (hs : drv.binarySizes = some sizes)
    (hd : drv.binaries = some data) :
    ∃ ex : Extracted, (main_extract drv).2 = Outcome.ok ex ∧
      ex.devices = n ∧ ex.binaries.length = n ∧
      (∀ i, i < n → ex.binsizes.getD i 0 = sizes i) ∧
      (∀ i, i < n → (ex.binaries.getD i []).length = sizes i) ∧
      writes (main args drv).trace
        = (List.range n).map (fun i => (output_name p.str n i, ex.binaries.getD i [], sizes i)) := by
  obtain ⟨hb, o2, ho2, hm⟩ := main_reaches_build args drv _ h
  have ho3 : o2 = o := by
    rw [ho] at ho2
    exact (Parsed.ok.inj ho2).symm
  rw [ho3] at hm
  refine ⟨⟨n, (List.range n).map sizes,
    (List.range n).map (fun i => fill (alloca (drv.stack i) (sizes i)) (data i))⟩, ?_, rfl, ?_, ?_,
    ?_, ?_⟩
  · rw [main_extract_ok drv n sizes data hn hs hd]
  · simp
  · intro i hi
    exact getD_map_range sizes n i 0 hi
  · intro i hi
    simp only []
    rw [getD_map_range _ n i [] hi, length_fill, length_alloca]
  · rw [hm, compile_of_success o drv hb, main_finish_ok o p drv n sizes data hp hn hs hd]
    rw [← List.cons_append, writes_append, writes_main_write]
    simp only [writes, List.nil_append]
    apply List.map_congr_left
    intro i hi
    have hi2 : i < n := List.mem_range.1 hi
    rw [getD_map_range _ n i [] hi2]

/-- C8 at `-c k.cl` with two devices whose binaries are 3 and 2 bytes long:
the two calls of `write` get `[1, 2, 3]` with count 3 and `[4, 5]` with count 2. -/
theorem extraction_matches_sizes_witness :
    Event.clBuildProgram BuildStatus.CL_SUCCESS
      ∈ (main [GetoptResult.c "k.cl".toList] (driver_ok (acme [devX 2]) 2 two_binaries)).trace ∧
    ∃ ex : Extracted,
      (main_extract (driver_ok (acme [devX 2]) 2 two_binaries)).2 = Outcome.ok ex ∧
      ex.devices = 2 ∧ ex.binaries.length = 2 ∧
      (∀ i, i < 2 → ex.binsizes.getD i 0 = (two_binaries i).length) ∧
      (∀ i, i < 2 → (ex.binaries.getD i []).length = (two_binaries i).length) ∧
      writes (main [GetoptResult.c "k.cl".toList] (driver_ok (acme [devX 2]) 2 two_binaries)).trace
        = (List.range 2).map (fun i =>
            (output_name (CharPtr.str ⟨"k.cl.clo".toList ++ [NUL], 0⟩) 2 i,
             ex.binaries.getD i [], (two_binaries i).length)) :=
  ⟨by decide,
   extraction_matches_sizes [GetoptResult.c "k.cl".toList]
     (driver_ok (acme [devX 2]) 2 two_binaries)
     ⟨some (strdup "k.cl".toList), some ⟨"k.cl.clo".toList ++ [NUL], 0⟩, none, none, 0⟩
     ⟨"k.cl.clo".toList ++ [NUL], 0⟩ 2 (fun i => (two_binaries i).length) two_binaries
     (by decide) (by decide) rfl rfl rfl rfl⟩

end Clc
